import Mathlib

/-!
Shallow embedding of the `check` declarative value-validation combinator
library.  The repository carries two parallel renderings of one design:
a typed variant (`src/check.ts`, embedded in namespace `TS`) and an
untyped variant (`src/check.js`, embedded in namespace `JS`).  JavaScript
values are modelled by `JSVal` (objects carry an identity used for the
strict-equality semantics of `===`), runtime constructors by `Ctor`,
thrown faults by `JSError` inside the `Except` monad, and the structured
failure record `CheckErr` mirrors the `CheckErr` class.
-/

/-- Runtime constructors (the values reachable via `value.constructor`). -/
inductive Ctor : Type where
  | number
  | stringC
  | booleanC
  | array
  | objectC
  | custom (id : Nat)
deriving DecidableEq, Repr

/-- JavaScript values.  An `object` carries an identity tag (strict
equality between objects is reference equality), its runtime constructor,
its named fields, and — when the object implements the iteration
protocol (`Symbol.iterator`) — the list of elements it yields. -/
inductive JSVal : Type where
  | num (n : Int)
  | str (s : String)
  | boolv (b : Bool)
  | nullv
  | undefv
  | object (id : Nat) (ctor : Ctor) (fields : List (String × JSVal))
      (elems : Option (List JSVal))

/-- Faults thrown by the library: the fixed configuration-error
sentinels declared at the top of both source files, plus the generic
`TypeError` the JavaScript runtime raises (e.g. property access on
`null`/`undefined`, or the `in` operator applied to a primitive). -/
inductive JSError : Type where
  | errCheckHasNoChecks
  | errExpectedFunction
  | errExpectedPropertyKey
  | errExpectedOneArgument
  | errNoOptions
  | typeError
deriving DecidableEq, Repr

/-- Error objects stored in a `CheckErr`'s `err` field (the TS `forOf`
stores the `ErrNotIterable` sentinel there). -/
inductive ErrTag : Type where
  | notIterable
deriving DecidableEq, Repr

/-- Values stored in the `expected` / `received` slots of a failure
record: a plain value, a candidates array, a constructor, or an opaque
reference to a check function, a checks array, a properties map, or the
top-level `check` function (which `logic.or` in the TS variant stores
due to name shadowing). -/
inductive ErrVal : Type where
  | v (val : JSVal)
  | list (vals : List JSVal)
  | ctor (c : Ctor)
  | checkRef
  | checksRef
  | mapRef
  | checkFnRef

/-- The structured Failure Record (`class CheckErr`): `expected`,
`received`, the optional locator metadata `property` and `index`, the
optional `err` slot, and the `errs` aggregate.  Entries of `errs` are
`Option CheckErr` because `logic.and` pushes the `undefined` result of
passing sub-checks into its aggregate. -/
inductive CheckErr : Type where
  | mk (expected : ErrVal) (received : ErrVal) (property : Option String)
      (index : Option Nat) (err : Option ErrTag)
      (errs : List (Option CheckErr))

/-- Construction `new CheckErr({expected, received})` with no locator
metadata and no aggregate. -/
def CheckErr.base (expected received : ErrVal) : CheckErr :=
  .mk expected received none none none []

/-- The after-the-fact mutation `err.property = key`. -/
def CheckErr.setProperty (key : String) : CheckErr → CheckErr
  | .mk e r _ i x s => .mk e r (some key) i x s

/-- The after-the-fact mutation `err.index = i`. -/
def CheckErr.setIndex (i : Nat) : CheckErr → CheckErr
  | .mk e r p _ x s => .mk e r p (some i) x s

/-- JavaScript strict equality `===`: structural on primitives,
reference (identity) equality on objects. -/
def strictEq : JSVal → JSVal → Bool
  | .num a, .num b => a == b
  | .str a, .str b => a == b
  | .boolv a, .boolv b => a == b
  | .nullv, .nullv => true
  | .undefv, .undefv => true
  | .object i _ _ _, .object j _ _ _ => i == j
  | _, _ => false

/-- The optional-chaining access `value?.constructor`: `none` models the
`undefined` it yields on `null`/`undefined`. -/
def constructorOf : JSVal → Option Ctor
  | .num _ => some .number
  | .str _ => some .stringC
  | .boolv _ => some .booleanC
  | .nullv => none
  | .undefv => none
  | .object _ c _ _ => some c

/-- Strict equality between `value?.constructor` (a constructor or
`undefined`) and a constructor function. -/
def ctorStrictEq : Option Ctor → Ctor → Bool
  | some c, e => c == e
  | none, _ => false

/-- The `received?.constructor` payload stored in a type-check failure
record (`undefined` when the value has no constructor). -/
def ctorErrVal (v : JSVal) : ErrVal :=
  match constructorOf v with
  | some c => .ctor c
  | none => .v .undefv

/-- Property access `value[key]`.  Throws the runtime `TypeError` on
`null`/`undefined`; on objects it reads the named field (`undefined`
when absent); on other primitives ad-hoc keys read as `undefined`. -/
def getProp (v : JSVal) (key : String) : Except JSError JSVal :=
  match v with
  | .nullv => .error .typeError
  | .undefv => .error .typeError
  | .object _ _ fields _ => .ok ((fields.lookup key).getD .undefv)
  | _ => .ok .undefv

/-- The test `Symbol.iterator in value`.  The `in` operator throws a
generic `TypeError` whenever its right operand is not an object — in
particular on numbers, strings, booleans, `null` and `undefined`.  On an
object it reports whether the object implements the iteration
protocol. -/
def symbolIteratorIn : JSVal → Except JSError Bool
  | .object _ _ _ elems => .ok elems.isSome
  | _ => .error .typeError

/-- The elements produced by `for (const x of value)` on an iterable
object. -/
def iteratedElems : JSVal → List JSVal
  | .object _ _ _ (some elems) => elems
  | _ => []

/-- The `Result` collector.  It is generic in the entry type because the
TS variant accumulates `CheckErr` values while the JS variant
accumulates whatever error objects its checks return. -/
structure Result (ε : Type) where
  errors : List ε

/-- Source: `isValid() { return this.errors.length === 0 }`. -/
def Result.isValid {ε : Type} (r : Result ε) : Bool :=
  r.errors.length == 0

/-- Source: `must() { if (this.errors.length > 0) throw new
AggregateError(this.errors) }` — the raised aggregate fault carries
exactly the accumulated records. -/
def Result.must {ε : Type} (r : Result ε) : Except (List ε) Unit :=
  if r.errors.length > 0 then .error r.errors else .ok ()

namespace TS

/-- Source type alias `type check = (argument: any) => CheckErr | void`
(capitalised because the entrypoint function of the same name is also
embedded). -/
abbrev Check := JSVal → Except JSError (Option CheckErr)

/-- The evaluation loop inside `check`: run every check in declaration
order, appending each defined (non-`undefined`) return. -/
def runChecks (checks : List Check) (received : JSVal) :
    Except JSError (List CheckErr) :=
  match checks with
  | [] => .ok []
  | c :: rest => do
    let err ← c received
    let tail ← runChecks rest received
    match err with
    | some e => pure (e :: tail)
    | none => pure tail

/-- Source `function check(received, ...checks)` (check.ts lines 39-50):
throws `ErrCheckHasNoChecks` on an empty check list, otherwise runs every
check and collects the defined returns into a fresh `Result`. -/
def check (received : JSVal) (checks : List Check) :
    Except JSError (Result CheckErr) :=
  if checks.length = 0 then .error .errCheckHasNoChecks
  else do
    let errs ← runChecks checks received
    pure ⟨errs⟩

namespace expect

/-- Source `expect.any(...expected)` (check.ts lines 53-61).  The body
loops `expected.length` times but each iteration tests
`received === expected`, i.e. strict equality against the rest-parameter
ARRAY itself, never against an element; `arrId` is the identity of that
freshly allocated array object. -/
def any (arrId : Nat) (expected : List JSVal) : Check :=
  fun received =>
    if expected.any
        (fun _ =>
          strictEq received (JSVal.object arrId Ctor.array [] (some expected)))
    then .ok none
    else .ok (some (CheckErr.base (.list expected) (.v received)))

/-- Source `expect.value(expected)` (check.ts lines 63-69). -/
def value (expected : JSVal) : Check :=
  fun received =>
    if strictEq received expected then .ok none
    else .ok (some (CheckErr.base (.v expected) (.v received)))

/-- Source `expect.not(...expected)` (check.ts lines 71-79).  As in
`any`, each loop iteration tests `received !== expected` against the
rest-parameter ARRAY (identity `arrId`), never against an element. -/
def not (arrId : Nat) (expected : List JSVal) : Check :=
  fun received =>
    if expected.any
        (fun _ =>
          strictEq received (JSVal.object arrId Ctor.array [] (some expected)))
    then .ok (some (CheckErr.base (.list expected) (.v received)))
    else .ok none

/-- Source `expect.type(expected)` (check.ts lines 81-87):
`received?.constructor === expected`, i.e. constructor identity. -/
def type (expected : Ctor) : Check :=
  fun received =>
    if ctorStrictEq (constructorOf received) expected then .ok none
    else .ok (some (CheckErr.base (.ctor expected) (ctorErrVal received)))

/-- Source `expect.property(property, expected)` (check.ts lines
116-122): the access `received[property]` is unguarded, so it throws a
generic `TypeError` on `null`/`undefined` candidates. -/
def property (key : String) (expected : JSVal) : Check :=
  fun received => do
    let pv ← getProp received key
    if strictEq pv expected then pure none
    else pure (some (CheckErr.mk (.v expected) (.v pv) (some key) none none []))

/-- The loop inside `expect.properties`: for each key in declaration
order, run the sub-check on `received[key]`, annotate a failing record
with `err.property = key`, and collect it. -/
def propertiesErrs (m : List (String × Check)) (received : JSVal) :
    Except JSError (List CheckErr) :=
  match m with
  | [] => .ok []
  | (key, ck) :: rest => do
    let pv ← getProp received key
    let err ← ck pv
    let tail ← propertiesErrs rest received
    match err with
    | none => pure tail
    | some e => pure (e.setProperty key :: tail)

/-- The check returned by `expect.properties` (check.ts lines 129-141):
on any failure it returns one `CheckErr` whose `errs` holds the annotated
failing records. -/
def propertiesBody (m : List (String × Check)) : Check :=
  fun received => do
    let errs ← propertiesErrs m received
    if errs.length > 0 then
      pure (some (CheckErr.mk .mapRef (.v received) none none none
        (errs.map some)))
    else pure none

/-- Source `expect.properties(expected)` (check.ts lines 125-142):
throws `ErrCheckHasNoChecks` when `Object.values(expected)` is empty,
otherwise returns the checking closure. -/
def properties (m : List (String × Check)) :
    Except JSError Check :=
  if (m.map (fun kv => kv.2)).length = 0 then .error .errCheckHasNoChecks
  else .ok (propertiesBody m)

/-- The iteration loop inside `expect.forOf`: run the element check on
every produced element, annotate a failing record with `err.index = i`,
and collect it. -/
def forOfErrs (ck : Check) (vals : List JSVal) (i : Nat) :
    Except JSError (List CheckErr) :=
  match vals with
  | [] => .ok []
  | v :: rest => do
    let err ← ck v
    let tail ← forOfErrs ck rest (i + 1)
    match err with
    | none => pure tail
    | some e => pure (e.setIndex i :: tail)

/-- Source `expect.forOf(check)` (check.ts lines 144-163).  The guard
`!(Symbol.iterator in received)` is meant to report `ErrNotIterable`,
but the `in` operator itself throws a generic `TypeError` when
`received` is a primitive. -/
def forOf (ck : Check) : Check :=
  fun received => do
    let iterable ← symbolIteratorIn received
    if iterable then do
      let errs ← forOfErrs ck (iteratedElems received) 0
      if errs.length > 0 then
        pure (some (CheckErr.mk .checkRef (.v received) none none none
          (errs.map some)))
      else pure none
    else
      pure (some (CheckErr.mk .checkRef (.v received) none none
        (some .notIterable) []))

end expect

namespace logic

/-- The loop inside `logic.and` (check.ts lines 171-175): when a
sub-check returns a defined error the iteration `continue`s, and when it
returns `undefined` that `undefined` is pushed into `errs` — i.e. the
aggregate collects one `undefined` entry per PASSING sub-check. -/
def andErrs (checks : List Check) (received : JSVal) :
    Except JSError (List (Option CheckErr)) :=
  match checks with
  | [] => .ok []
  | c :: rest => do
    let err ← c received
    let tail ← andErrs rest received
    match err with
    | some _ => pure tail
    | none => pure (none :: tail)

/-- Source `logic.and(...checks)` (check.ts lines 167-179).  Note: no
construction-time validation of the check list. -/
def and (checks : List Check) : Check :=
  fun received => do
    let errs ← andErrs checks received
    if errs.length > 0 then
      pure (some (CheckErr.mk .checksRef (.v received) none none none errs))
    else pure none

/-- The loop inside `logic.or`: return success on the first passing
sub-check, otherwise collect every failure record in order (`none` in
the result means some sub-check succeeded). -/
def orErrs (checks : List Check) (received : JSVal) :
    Except JSError (Option (List (Option CheckErr))) :=
  match checks with
  | [] => .ok (some [])
  | c :: rest => do
    let err ← c received
    match err with
    | none => pure none
    | some e => do
      let r ← orErrs rest received
      match r with
      | none => pure none
      | some tail => pure (some (some e :: tail))

/-- Source `logic.or(...checks)` (check.ts lines 181-193).  No
construction-time validation; if every sub-check fails it returns
`new CheckErr({expected: check, received, errs})`, where `check` names
the shadowing top-level entrypoint function (`.checkFnRef`). -/
def or (checks : List Check) : Check :=
  fun received => do
    let r ← orErrs checks received
    match r with
    | none => pure none
    | some errs =>
      pure (some (CheckErr.mk .checkFnRef (.v received) none none none errs))

end logic

end TS

/-- Error objects a JS-variant check can return: a `CheckErr` instance,
an `AggregateError(errs)` (whose entries may be the `undefined` results
`logic.and` pushes), or the shared `ErrNotIterable` sentinel that
`forOf` returns directly. -/
inductive JSErrObj : Type where
  | ck (e : CheckErr)
  | agg (errs : List (Option JSErrObj))
  | notIterableErr

/-- The mutation `err.index = i` on a check's return value (dynamic
property attachment on non-`CheckErr` objects is not represented; the
claims never exercise it). -/
def JSErrObj.setIndex (i : Nat) : JSErrObj → JSErrObj
  | .ck e => .ck (e.setIndex i)
  | o => o

/-- The mutation `err.property = key` on a check's return value. -/
def JSErrObj.setProperty (key : String) : JSErrObj → JSErrObj
  | .ck e => .ck (e.setProperty key)
  | o => o

/-- The shape of an argument as seen by the JS variant's `checkCheck`
validator: an actual function (all checks built by the library are
unary functions) or an array — which `expect.properties` passes by
forgetting to spread `Object.values(object)`. -/
inductive JSArg : Type where
  | func
  | arr (args : List JSArg)

namespace JS

/-- The JS variant's check type: `received` to a defined error object or
`undefined`. -/
abbrev Check := JSVal → Except JSError (Option JSErrObj)

/-- Source `function checkCheck(check)` (check.js lines 30-33): throws
`ErrExpectedFunction` unless the argument is a function (the arity-one
test always passes for the unary closures of this model). -/
def checkCheckArg : JSArg → Except JSError Unit
  | .func => .ok ()
  | .arr _ => .error .errExpectedFunction

/-- The validation loop of `checkChecks` over its rest parameter. -/
def checkChecksGo : List JSArg → Except JSError Unit
  | [] => .ok ()
  | a :: rest => do
    checkCheckArg a
    checkChecksGo rest

/-- Source `function checkChecks(...checks)` (check.js lines 35-41):
throws `ErrCheckHasNoChecks` on an empty argument list, then validates
each argument with `checkCheck`. -/
def checkChecks (args : List JSArg) : Except JSError Unit :=
  if args.length = 0 then .error .errCheckHasNoChecks
  else checkChecksGo args

/-- The evaluation loop inside the JS `check` entrypoint. -/
def runChecks (checks : List Check) (received : JSVal) :
    Except JSError (List JSErrObj) :=
  match checks with
  | [] => .ok []
  | c :: rest => do
    let err ← c received
    let tail ← runChecks rest received
    match err with
    | some e => pure (e :: tail)
    | none => pure tail

/-- Source `function check(received, ...checks)` (check.js lines 43-53):
validates the spread check list with `checkChecks`, then runs every
check in declaration order collecting defined returns. -/
def check (received : JSVal) (checks : List Check) :
    Except JSError (Result JSErrObj) := do
  checkChecks (checks.map (fun _ => JSArg.func))
  let errs ← runChecks checks received
  pure ⟨errs⟩

namespace expect

/-- Source `expect.any(...expected)` (check.js lines 56-64): identical
defect to the TS variant — each iteration compares `received` against
the rest-parameter array (identity `arrId`), never an element. -/
def any (arrId : Nat) (expected : List JSVal) : Check :=
  fun received =>
    if expected.any
        (fun _ =>
          strictEq received (JSVal.object arrId Ctor.array [] (some expected)))
    then .ok none
    else .ok (some (.ck (CheckErr.base (.list expected) (.v received))))

/-- Source `expect.value(expected)` (check.js lines 66-72). -/
def value (expected : JSVal) : Check :=
  fun received =>
    if strictEq received expected then .ok none
    else .ok (some (.ck (CheckErr.base (.v expected) (.v received))))

/-- Source `expect.not(...expected)` (check.js lines 74-82): same
array-instead-of-element comparison as the TS variant. -/
def not (arrId : Nat) (expected : List JSVal) : Check :=
  fun received =>
    if expected.any
        (fun _ =>
          strictEq received (JSVal.object arrId Ctor.array [] (some expected)))
    then .ok (some (.ck (CheckErr.base (.list expected) (.v received))))
    else .ok none

/-- The string produced by `typeof value?.constructor`: constructors are
functions, and `null`/`undefined` have no constructor. -/
def typeofConstructor (v : JSVal) : String :=
  match constructorOf v with
  | some _ => "function"
  | none => "undefined"

/-- Strict equality between a string (the result of `typeof`) and a
constructor function: values of different runtime types are never
strictly equal, so this is constantly `false`. -/
def strictEqStrCtor (_ : String) (_ : Ctor) : Bool := false

/-- The check returned by the JS `expect.type` (check.js lines 88-92):
its test is `typeof received?.constructor === expected`, comparing the
STRING `typeof` yields with the constructor function. -/
def typeBody (expected : Ctor) : Check :=
  fun received =>
    if strictEqStrCtor (typeofConstructor received) expected then .ok none
    else .ok (some (.ck (CheckErr.base (.ctor expected) (ctorErrVal received))))

/-- The guard `typeof expected === "function"` evaluated on a
constructor: constructors are functions, so it holds. -/
def typeofCtorIsFunction (_ : Ctor) : Bool := true

/-- Source `expect.type(expected)` (check.js lines 84-93): validates
that `expected` is a function (constructors always are), then returns
the checking closure. -/
def type (expected : Ctor) : Except JSError Check :=
  if typeofCtorIsFunction expected then .ok (typeBody expected)
  else .error .errExpectedFunction

/-- The check returned by the JS `expect.property` (check.js lines
128-132): the access `received[property]` is unguarded, so it throws a
generic `TypeError` on `null`/`undefined` candidates. -/
def propertyBody (key : String) (expected : JSVal) : Check :=
  fun received => do
    let pv ← getProp received key
    if strictEq pv expected then pure none
    else
      pure (some (.ck (CheckErr.mk (.v expected) (.v pv) (some key) none none [])))

/-- The guard `typeof property === "string" || typeof property ===
"symbol"` evaluated on a key, which in this model is a string. -/
def isPropertyKey (_ : String) : Bool := true

/-- Source `expect.property(property, expected)` (check.js lines
125-133): validates the key is a string or symbol (keys in this model
are strings), then returns the checking closure. -/
def property (key : String) (expected : JSVal) : Except JSError Check :=
  if isPropertyKey key then .ok (propertyBody key expected)
  else .error .errExpectedPropertyKey

/-- The loop inside the JS `expect.properties`. -/
def propertiesErrs (m : List (String × Check)) (received : JSVal) :
    Except JSError (List JSErrObj) :=
  match m with
  | [] => .ok []
  | (key, ck) :: rest => do
    let pv ← getProp received key
    let err ← ck pv
    let tail ← propertiesErrs rest received
    match err with
    | none => pure tail
    | some e => pure (e.setProperty key :: tail)

/-- The check the JS `expect.properties` would return (check.js lines
139-151): on failure it returns `new AggregateError(errs)`. -/
def propertiesBody (m : List (String × Check)) : Check :=
  fun received => do
    let errs ← propertiesErrs m received
    if errs.length > 0 then pure (some (.agg (errs.map some)))
    else pure none

/-- Source `expect.properties(object)` (check.js lines 136-152): it
calls `checkChecks(Object.values(object))`, passing the values ARRAY as
one single argument instead of spreading it, so `checkCheck` receives an
array and throws `ErrExpectedFunction` for every map. -/
def properties (m : List (String × Check)) : Except JSError Check := do
  checkChecks [JSArg.arr (m.map (fun _ => JSArg.func))]
  pure (propertiesBody m)

/-- The iteration loop inside the JS `expect.forOf`. -/
def forOfErrs (ck : Check) (vals : List JSVal) (i : Nat) :
    Except JSError (List JSErrObj) :=
  match vals with
  | [] => .ok []
  | v :: rest => do
    let err ← ck v
    let tail ← forOfErrs ck rest (i + 1)
    match err with
    | none => pure tail
    | some e => pure (e.setIndex i :: tail)

/-- The check returned by the JS `expect.forOf` (check.js lines
157-174): for an object without `Symbol.iterator` it returns the
`ErrNotIterable` sentinel directly, but the guard's `in` operator throws
a generic `TypeError` on primitives; on failures during iteration it
returns `new AggregateError(errs)`. -/
def forOfBody (ck : Check) : Check :=
  fun received => do
    let iterable ← symbolIteratorIn received
    if iterable then do
      let errs ← forOfErrs ck (iteratedElems received) 0
      if errs.length > 0 then pure (some (.agg (errs.map some)))
      else pure none
    else pure (some .notIterableErr)

/-- Source `expect.forOf(check)` (check.js lines 154-175): validates the
element check with `checkCheck`, then returns the iterating closure. -/
def forOf (ck : Check) : Except JSError Check := do
  checkCheckArg .func
  pure (forOfBody ck)

end expect

namespace logic

/-- The loop inside the JS `logic.and` (check.js lines 183-189): a
defined error `continue`s the loop, while the `undefined` result of a
PASSING sub-check is pushed into `errs`. -/
def andErrs (checks : List Check) (received : JSVal) :
    Except JSError (List (Option JSErrObj)) :=
  match checks with
  | [] => .ok []
  | c :: rest => do
    let err ← c received
    let tail ← andErrs rest received
    match err with
    | some _ => pure tail
    | none => pure (none :: tail)

/-- The check the JS `logic.and` returns. -/
def andBody (checks : List Check) : Check :=
  fun received => do
    let errs ← andErrs checks received
    if errs.length > 0 then pure (some (.agg errs))
    else pure none

/-- Source `logic.and(...checks)` (check.js lines 179-193): validates
the spread check list (throwing `ErrCheckHasNoChecks` when empty), then
returns the closure. -/
def and (checks : List Check) : Except JSError Check := do
  checkChecks (checks.map (fun _ => JSArg.func))
  pure (andBody checks)

/-- The loop inside the JS `logic.or`: success on the first passing
sub-check, otherwise every failure record in order. -/
def orErrs (checks : List Check) (received : JSVal) :
    Except JSError (Option (List (Option JSErrObj))) :=
  match checks with
  | [] => .ok (some [])
  | c :: rest => do
    let err ← c received
    match err with
    | none => pure none
    | some e => do
      let r ← orErrs rest received
      match r with
      | none => pure none
      | some tail => pure (some (some e :: tail))

/-- The check the JS `logic.or` returns: `new AggregateError(errs)` when
every sub-check fails. -/
def orBody (checks : List Check) : Check :=
  fun received => do
    let r ← orErrs checks received
    match r with
    | none => pure none
    | some errs => pure (some (.agg errs))

/-- Source `logic.or(...checks)` (check.js lines 195-209): validates the
spread check list (throwing `ErrCheckHasNoChecks` when empty), then
returns the closure. -/
def or (checks : List Check) : Except JSError Check := do
  checkChecks (checks.map (fun _ => JSArg.func))
  pure (orBody checks)

end logic

end JS

namespace SpecModel

/-- Stated intended contract of `any` taken from the spec table ("value
strictly equals one of candidates"), kept separate from the source
embeddings to exhibit their divergence. -/
def any (candidates : List JSVal) (received : JSVal) : Option CheckErr :=
  if candidates.any (fun c => strictEq received c) then none
  else some (CheckErr.base (.list candidates) (.v received))

/-- Stated contract of `not` taken from the spec table ("value strictly
equals none of excluded"). -/
def notEx (excluded : List JSVal) (received : JSVal) : Option CheckErr :=
  if excluded.any (fun c => strictEq received c) then
    some (CheckErr.base (.list excluded) (.v received))
  else none

/-- Stated intended contract of `logic.and` taken from the spec
("succeeds iff all sub-checks succeed; on failure, aggregates only the
failing sub-checks' records"), expressed on the list of sub-check
results. -/
def andAggregate (results : List (Option CheckErr)) : Option (List CheckErr) :=
  let failing := results.filterMap id
  if failing.isEmpty then none else some failing

end SpecModel

/-- The defined failure record a TS-variant check returns on a value
(`none` both for success and for a thrown fault; the latter is excluded
by hypothesis wherever this is used). -/
def tsOutcome (r : Except JSError (Option CheckErr)) : Option CheckErr :=
  match r with
  | .ok o => o
  | .error _ => none

/-- The defined error object a JS-variant check returns on a value. -/
def jsOutcome (r : Except JSError (Option JSErrObj)) : Option JSErrObj :=
  match r with
  | .ok o => o
  | .error _ => none

theorem length_filterMap_eq_countP {α β : Type} (l : List α) (f : α → Option β) :
    (l.filterMap f).length = l.countP (fun a => (f a).isSome) := by
  induction l with
  | nil => rfl
  | cons a t ih =>
    cases hfa : f a <;>
      simp [List.filterMap_cons, hfa, List.countP_cons, ih]

theorem ts_runChecks_eq (checks : List TS.Check) (v : JSVal)
    (h : ∀ c ∈ checks, ∃ o, c v = Except.ok o) :
    TS.runChecks checks v =
      Except.ok (checks.filterMap (fun c => tsOutcome (c v))) := by
  induction checks with
  | nil => rfl
  | cons c rest ih =>
    obtain ⟨o, ho⟩ := h c (List.mem_cons_self c rest)
    have hrest : ∀ c2 ∈ rest, ∃ o2, c2 v = Except.ok o2 :=
      fun c2 hc2 => h c2 (List.mem_cons_of_mem _ hc2)
    cases o with
    | none =>
      simp [TS.runChecks, ho, ih hrest, List.filterMap_cons, tsOutcome,
        Bind.bind, Except.bind, Pure.pure, Except.pure]
    | some e =>
      simp [TS.runChecks, ho, ih hrest, List.filterMap_cons, tsOutcome,
        Bind.bind, Except.bind, Pure.pure, Except.pure]

theorem js_runChecks_eq (checks : List JS.Check) (v : JSVal)
    (h : ∀ c ∈ checks, ∃ o, c v = Except.ok o) :
    JS.runChecks checks v =
      Except.ok (checks.filterMap (fun c => jsOutcome (c v))) := by
  induction checks with
  | nil => rfl
  | cons c rest ih =>
    obtain ⟨o, ho⟩ := h c (List.mem_cons_self c rest)
    have hrest : ∀ c2 ∈ rest, ∃ o2, c2 v = Except.ok o2 :=
      fun c2 hc2 => h c2 (List.mem_cons_of_mem _ hc2)
    cases o with
    | none =>
      simp [JS.runChecks, ho, ih hrest, List.filterMap_cons, jsOutcome,
        Bind.bind, Except.bind, Pure.pure, Except.pure]
    | some e =>
      simp [JS.runChecks, ho, ih hrest, List.filterMap_cons, jsOutcome,
        Bind.bind, Except.bind, Pure.pure, Except.pure]

theorem js_checkChecksGo_funcs (l : List JS.Check) :
    JS.checkChecksGo (l.map (fun _ => JSArg.func)) = Except.ok () := by
  induction l with
  | nil => rfl
  | cons c rest ih => exact ih

theorem js_checkChecks_funcs (l : List JS.Check) (h : l ≠ []) :
    JS.checkChecks (l.map (fun _ => JSArg.func)) = Except.ok () := by
  have hlen : ¬ (l.map (fun _ => JSArg.func)).length = 0 := by
    simpa [List.length_eq_zero] using h
  rw [JS.checkChecks, if_neg hlen]
  exact js_checkChecksGo_funcs l

/-- Claim C1 (the code defies it): `expect.any(1)` applied to the value
`1` — which strictly equals the sole candidate — still returns a failure
record with `expected` the candidate list and `received` the value, in
both variants and for every identity the rest-parameter array may have,
because the body compares the value against that array itself instead of
against each candidate; the stated per-candidate contract
(`SpecModel.any`) succeeds on the same input. -/
theorem any_fails_on_matching_candidate :
    (∀ arrId : Nat,
      TS.expect.any arrId [JSVal.num 1] (JSVal.num 1) =
        Except.ok (some (CheckErr.base (.list [JSVal.num 1])
          (.v (JSVal.num 1))))) ∧
    (∀ arrId : Nat,
      JS.expect.any arrId [JSVal.num 1] (JSVal.num 1) =
        Except.ok (some (.ck (CheckErr.base (.list [JSVal.num 1])
          (.v (JSVal.num 1)))))) ∧
    SpecModel.any [JSVal.num 1] (JSVal.num 1) = none :=
  ⟨fun _ => rfl, fun _ => rfl, rfl⟩

/-- Claim C2 (the code defies it): `logic.and` with the single sub-check
`value(1)` REJECTS the value `1` (on which the sub-check succeeds),
returning an aggregate whose `errs` holds exactly the `undefined` result
of the passing sub-check, and ACCEPTS the value `2` (on which the
sub-check fails) — in both variants; the stated intended contract
(`SpecModel.andAggregate`) does the opposite on the same sub-check
results. -/
theorem and_collects_passing_subchecks :
    TS.logic.and [TS.expect.value (JSVal.num 1)] (JSVal.num 1) =
        Except.ok (some (CheckErr.mk .checksRef (.v (JSVal.num 1))
          none none none [none])) ∧
      TS.logic.and [TS.expect.value (JSVal.num 1)] (JSVal.num 2) =
        Except.ok none ∧
      JS.logic.and [JS.expect.value (JSVal.num 1)] =
        Except.ok (JS.logic.andBody [JS.expect.value (JSVal.num 1)]) ∧
      JS.logic.andBody [JS.expect.value (JSVal.num 1)] (JSVal.num 1) =
        Except.ok (some (.agg [none])) ∧
      JS.logic.andBody [JS.expect.value (JSVal.num 1)] (JSVal.num 2) =
        Except.ok none ∧
      SpecModel.andAggregate [none] = none ∧
      SpecModel.andAggregate
          [some (CheckErr.base (.v (JSVal.num 1)) (.v (JSVal.num 2)))] =
        some [CheckErr.base (.v (JSVal.num 1)) (.v (JSVal.num 2))] :=
  ⟨rfl, rfl, rfl, rfl, rfl, rfl, rfl⟩

/-- Claim C3: for every non-empty check list and every value on which no
supplied check throws, the `Result` returned by the entrypoint `check`
has an `errors` sequence listing, in declaration order, exactly the
defined failure records the checks return, so its length equals the
number of checks returning a defined failure — in both the TS and JS
variants. -/
theorem check_collects_defined_failures_in_order :
    (∀ (checks : List TS.Check) (v : JSVal), checks ≠ [] →
      (∀ c ∈ checks, ∃ o, c v = Except.ok o) →
      TS.check v checks =
          Except.ok ⟨checks.filterMap (fun c => tsOutcome (c v))⟩ ∧
        (checks.filterMap (fun c => tsOutcome (c v))).length =
          checks.countP (fun c => (tsOutcome (c v)).isSome)) ∧
    (∀ (checks : List JS.Check) (v : JSVal), checks ≠ [] →
      (∀ c ∈ checks, ∃ o, c v = Except.ok o) →
      JS.check v checks =
          Except.ok ⟨checks.filterMap (fun c => jsOutcome (c v))⟩ ∧
        (checks.filterMap (fun c => jsOutcome (c v))).length =
          checks.countP (fun c => (jsOutcome (c v)).isSome)) := by
  constructor
  · intro checks v hne hok
    refine ⟨?_, length_filterMap_eq_countP _ _⟩
    have hlen : ¬ checks.length = 0 := by
      simpa [List.length_eq_zero] using hne
    rw [TS.check, if_neg hlen, ts_runChecks_eq checks v hok]
    rfl
  · intro checks v hne hok
    refine ⟨?_, length_filterMap_eq_countP _ _⟩
    rw [JS.check, js_checkChecks_funcs checks hne, js_runChecks_eq checks v hok]
    rfl

/-- Witness for C3 at a concrete input: in each variant, a two-check
list (one passing, one failing) on the value `1` yields exactly the one
failure record of the failing check. -/
theorem check_collects_defined_failures_in_order_witness :
    TS.check (JSVal.num 1)
        [TS.expect.value (JSVal.num 1), TS.expect.value (JSVal.num 2)] =
      Except.ok ⟨[CheckErr.base (.v (JSVal.num 2)) (.v (JSVal.num 1))]⟩ ∧
    JS.check (JSVal.num 1)
        [JS.expect.value (JSVal.num 1), JS.expect.value (JSVal.num 2)] =
      Except.ok ⟨[JSErrObj.ck (CheckErr.base (.v (JSVal.num 2))
        (.v (JSVal.num 1)))]⟩ := by
  constructor
  · exact (check_collects_defined_failures_in_order.1
      [TS.expect.value (JSVal.num 1), TS.expect.value (JSVal.num 2)]
      (JSVal.num 1) (by simp)
      (by
        intro c hc
        simp at hc
        rcases hc with h1 | h2
        · subst h1; exact ⟨none, rfl⟩
        · subst h2; exact ⟨_, rfl⟩)).1
  · exact (check_collects_defined_failures_in_order.2
      [JS.expect.value (JSVal.num 1), JS.expect.value (JSVal.num 2)]
      (JSVal.num 1) (by simp)
      (by
        intro c hc
        simp at hc
        rcases hc with h1 | h2
        · subst h1; exact ⟨none, rfl⟩
        · subst h2; exact ⟨_, rfl⟩)).1

/-- Claim C4 counterexample: in the TS variant, `logic.and` and
`logic.or` invoked with an empty check list raise no configuration
error — construction yields working checks, of which `and([])` accepts
the value `0` and `or([])` rejects it with an empty aggregate. -/
theorem ts_combinators_accept_empty_list :
    TS.logic.and [] (JSVal.num 0) = Except.ok none ∧
      TS.logic.or [] (JSVal.num 0) =
        Except.ok (some (CheckErr.mk .checkFnRef (.v (JSVal.num 0))
          none none none [])) :=
  ⟨rfl, rfl⟩

/-- Claim C4 as amended: the evaluation entrypoint of both variants and
the JS variant's `logic.and` / `logic.or` raise `ErrCheckHasNoChecks` on
an empty check list, but the TS variant's combinators perform no
construction-time validation — its `and([])` yields a check succeeding
on every value and its `or([])` yields a check failing on every value
with an empty aggregate. -/
theorem empty_check_list_validation :
    (∀ v : JSVal, TS.check v [] = Except.error JSError.errCheckHasNoChecks) ∧
      (∀ v : JSVal, JS.check v [] = Except.error JSError.errCheckHasNoChecks) ∧
      JS.logic.and [] = Except.error JSError.errCheckHasNoChecks ∧
      JS.logic.or [] = Except.error JSError.errCheckHasNoChecks ∧
      (∀ v : JSVal, TS.logic.and [] v = Except.ok none) ∧
      (∀ v : JSVal, TS.logic.or [] v =
        Except.ok (some (CheckErr.mk .checkFnRef (.v v) none none none []))) :=
  ⟨fun _ => rfl, fun _ => rfl, rfl, rfl, fun _ => rfl, fun _ => rfl⟩

/-- Claim C5 (the TS variant satisfies it, the JS variant defies it):
the TS `expect.type(Array)` accepts an array and rejects a plain object
with `{expected: Array, received: Object}`, while the JS variant's test
compares the STRING `typeof received?.constructor` against the
constructor function, so its `expect.type(Array)` rejects even an actual
array. -/
theorem type_identity_divergence :
    TS.expect.type Ctor.array (JSVal.object 0 Ctor.array [] (some [])) =
        Except.ok none ∧
      TS.expect.type Ctor.array (JSVal.object 1 Ctor.objectC [] none) =
        Except.ok (some (CheckErr.base (.ctor Ctor.array)
          (.ctor Ctor.objectC))) ∧
      JS.expect.type Ctor.array = Except.ok (JS.expect.typeBody Ctor.array) ∧
      JS.expect.typeBody Ctor.array (JSVal.object 0 Ctor.array [] (some [])) =
        Except.ok (some (.ck (CheckErr.base (.ctor Ctor.array)
          (.ctor Ctor.array)))) :=
  ⟨rfl, rfl, rfl, rfl⟩

/-- Claim C6 (the code defies it): `expect.not(1)` applied to the value
`1` — which strictly equals the sole excluded value — still SUCCEEDS in
both variants and for every identity the rest-parameter array may have,
because the body compares the value against that array itself instead of
against each excluded value; the stated per-element contract
(`SpecModel.notEx`) fails there with `expected` the excluded list and
`received` the value. -/
theorem not_accepts_excluded_value :
    (∀ arrId : Nat,
      TS.expect.not arrId [JSVal.num 1] (JSVal.num 1) = Except.ok none) ∧
    (∀ arrId : Nat,
      JS.expect.not arrId [JSVal.num 1] (JSVal.num 1) = Except.ok none) ∧
    SpecModel.notEx [JSVal.num 1] (JSVal.num 1) =
      some (CheckErr.base (.list [JSVal.num 1]) (.v (JSVal.num 1))) :=
  ⟨fun _ => rfl, fun _ => rfl, rfl⟩

/-- Claim C7 (the code defies it): `expect.forOf(c)` applied to the
primitive `42` raises the generic `TypeError` thrown by
`Symbol.iterator in received` instead of reporting `NotIterableError`,
in both variants; the `NotIterableError` path is only reached for
non-iterable OBJECTS, as the second conjunct shows for `{}`. -/
theorem forOf_raises_typeerror_on_primitive :
    TS.expect.forOf (TS.expect.value (JSVal.num 0)) (JSVal.num 42) =
        Except.error JSError.typeError ∧
      TS.expect.forOf (TS.expect.value (JSVal.num 0))
          (JSVal.object 0 Ctor.objectC [] none) =
        Except.ok (some (CheckErr.mk .checkRef
          (.v (JSVal.object 0 Ctor.objectC [] none)) none none
          (some ErrTag.notIterable) [])) ∧
      JS.expect.forOf (JS.expect.value (JSVal.num 0)) =
        Except.ok (JS.expect.forOfBody (JS.expect.value (JSVal.num 0))) ∧
      JS.expect.forOfBody (JS.expect.value (JSVal.num 0)) (JSVal.num 42) =
        Except.error JSError.typeError :=
  ⟨rfl, rfl, rfl, rfl⟩

/-- Claim C8 (the TS variant satisfies it, the JS variant defies it):
the TS `expect.properties({a: value(1)})` is constructed without error,
rejects `{a: 2}` with one failure record whose `errs` holds exactly one
record annotated `property: "a"`, and accepts `{a: 1}`; the JS variant's
construction passes `Object.values(object)` to `checkChecks` as a single
un-spread array argument and therefore throws `ErrExpectedFunction` for
this (and every) non-empty map. -/
theorem properties_construction_divergence :
    TS.expect.properties [("a", TS.expect.value (JSVal.num 1))] =
        Except.ok (TS.expect.propertiesBody
          [("a", TS.expect.value (JSVal.num 1))]) ∧
      TS.expect.propertiesBody [("a", TS.expect.value (JSVal.num 1))]
          (JSVal.object 0 Ctor.objectC [("a", JSVal.num 2)] none) =
        Except.ok (some (CheckErr.mk .mapRef
          (.v (JSVal.object 0 Ctor.objectC [("a", JSVal.num 2)] none))
          none none none
          [some (CheckErr.mk (.v (JSVal.num 1)) (.v (JSVal.num 2))
            (some "a") none none [])])) ∧
      TS.expect.propertiesBody [("a", TS.expect.value (JSVal.num 1))]
          (JSVal.object 1 Ctor.objectC [("a", JSVal.num 1)] none) =
        Except.ok none ∧
      JS.expect.properties [("a", JS.expect.value (JSVal.num 1))] =
        Except.error JSError.errExpectedFunction :=
  ⟨rfl, rfl, rfl, rfl⟩

/-- Claim C9: for every `Result` (of either variant, over any entry
type), `must()` returns normally exactly when the `errors` sequence is
empty, and otherwise raises an aggregate fault carrying exactly the
accumulated records in their insertion order. -/
theorem must_raises_exactly_accumulated_errors :
    ∀ (ε : Type) (r : Result ε),
      r.must =
        if r.errors.isEmpty then Except.ok () else Except.error r.errors := by
  intro ε r
  rcases r with ⟨l⟩
  cases l <;> simp [Result.must]

/-- Claim C10: for every property key and expected value, applying the
`expect.property` check of either variant to a `null` or `undefined`
candidate throws the generic `TypeError` of the unguarded property
access `received[property]` instead of returning a failure record, so
the check is not total over candidate values. -/
theorem property_check_raises_on_nullish :
    ∀ (key : String) (expected : JSVal),
      TS.expect.property key expected JSVal.nullv =
          Except.error JSError.typeError ∧
        TS.expect.property key expected JSVal.undefv =
          Except.error JSError.typeError ∧
        JS.expect.property key expected =
          Except.ok (JS.expect.propertyBody key expected) ∧
        JS.expect.propertyBody key expected JSVal.nullv =
          Except.error JSError.typeError ∧
        JS.expect.propertyBody key expected JSVal.undefv =
          Except.error JSError.typeError :=
  fun _ _ => ⟨rfl, rfl, rfl, rfl, rfl⟩
